import Mathlib

/-
Verification of the order submission and settlement engine of the
solana-sniper backend.  The definitions below are a shallow embedding of
the TypeScript source:

  * src/src/database/models/wallet.model.ts
      (transactionalCreateOrderAndSendToNetwork and the Wallet model)
  * src/src/cronjobs/check-confirmation.ts
      (checkConfirmation, handleTransactionFailure, updateWalletBalances,
       updateOrCreatePnL, updateOrderWalletPnL and the balance helpers)
  * src/unnamed/part_010  (the cron scheduler and its order selection)
  * src/unnamed/part_011  (the create route handler's balance validation)
      together with getWalletBalance from src/unnamed/part_007

Database rows are Lean structures; the relational store is a structure of
lists; SQL relative updates (`SET x = x + d WHERE id = i`) are list maps
guarded by the row id.  All DECIMAL(78,0) columns and BN amounts are
embedded as Int; BigNumber decimal arithmetic (used for USD values and
scaled balances) is embedded as exact rational arithmetic on ℚ.
Base58/lowercased addresses are embedded as already-normalised strings.
-/

namespace Sniper

inductive OrderDirection
  | buy
  | sell
deriving DecidableEq, Repr

inductive OrderType
  | swap
  | limit
  | dca
deriving DecidableEq, Repr

/-- Status enum of the Order model (order.model source, misfiled in the
repository snapshot inside src/src/cache/raydium-cache.ts).  The
constructor limitPartFilled stands for the limit-partially-filled value. -/
inductive OrderStatus
  | created
  | submitting
  | submitted
  | confirming
  | confirmed
  | failed
  | limitNew
  | limitFilled
  | limitPartFilled
deriving DecidableEq, Repr

structure BlockHash where
  blockhash : String
  lastValidBlockHeight : Nat
deriving DecidableEq, Repr

structure TokenRec where
  id : Nat
  contractAddress : String
  unitDecimals : Nat
deriving DecidableEq, Repr

structure WalletRec where
  id : Nat
  userId : Nat
  parentId : Option Nat
  tokenId : Nat
  keyId : Nat
  address : String
  confirmedBalance : Int
  unconfirmedBalance : Int
deriving DecidableEq, Repr

structure MarketRec where
  id : Nat
  poolAddress : String
  baseTokenId : Nat
  quoteTokenId : Nat
deriving DecidableEq, Repr

/-- User row; only the fields read or written by the embedded operations. -/
structure UserRec where
  id : Nat
  defaultWalletId : Option Nat
  selectedTransactionId : Option String
  selectedOrderDirection : OrderDirection
  selectedOrderType : OrderType
  selectedPoolAddress : Option String
  selectedInputMint : Option String
  selectedOutputMint : Option String
  selectedEstimatedOutput : Option String
  selectedInputDecimals : Nat
  selectedOutputDecimals : Nat
  selectedPriceImpact : ℚ
  selectedInputAmount : ℚ
  selectedSellAmount : ℚ
  selectedTokenUsdPrice : ℚ
  selectedDCAInAmount : Nat
  selectedDCAInAmountPerCycle : Nat
  selectedDCACycleSecondsApart : Nat
deriving DecidableEq, Repr

structure OrderDetails where
  recentBlockHash : Option BlockHash
  estimatedPriorityFee : Option Nat
deriving DecidableEq, Repr

structure OrderRec where
  id : Nat
  userId : Nat
  marketId : Nat
  inputWalletId : Nat
  outputWalletId : Nat
  transactionId : Option String
  inAmount : Int
  inAmountInUsd : ℚ
  outAmount : Option Int
  commission : Int
  networkFee : Int
  orderType : OrderType
  orderDirection : OrderDirection
  limitOrder : Option String
  dcaPubKey : Option String
  succeeded : Bool
  status : OrderStatus
  details : Option OrderDetails
deriving DecidableEq, Repr

structure PnLRec where
  id : Nat
  walletId : Nat
  cumulativeBuyQuantity : Int
  cumulativeBuyCostInSol : Int
  cumulativeBuyCostInUsd : ℚ
  cumulativeSellQuantity : Int
  cumulativeSellProceedsInSol : Int
  cumulativeSellProceedsInUsd : ℚ
  isClosed : Bool
deriving DecidableEq, Repr

/-- The relational store backing the engine.  keys lists the ids of the
existing Key rows (only their existence matters to the embedded code). -/
structure Db where
  users : List UserRec
  wallets : List WalletRec
  tokens : List TokenRec
  markets : List MarketRec
  orders : List OrderRec
  pnls : List PnLRec
  keys : List Nat
  nextWalletId : Nat
  nextOrderId : Nat
  nextPnlId : Nat
deriving DecidableEq, Repr

/-- SQL UPDATE ... WHERE id = wid on the wallets table. -/
def updateWalletRow (ws : List WalletRec) (wid : Nat) (f : WalletRec → WalletRec) :
    List WalletRec :=
  ws.map fun w => if w.id == wid then f w else w

/-- SQL UPDATE ... WHERE id = oid on the orders table. -/
def updateOrderRow (os : List OrderRec) (oid : Nat) (f : OrderRec → OrderRec) :
    List OrderRec :=
  os.map fun o => if o.id == oid then f o else o

/-- SQL UPDATE ... WHERE id = pid on the pnls table. -/
def updatePnlRow (ps : List PnLRec) (pid : Nat) (f : PnLRec → PnLRec) :
    List PnLRec :=
  ps.map fun p => if p.id == pid then f p else p

/-- Primary-key read on the wallets table. -/
def walletRow (ws : List WalletRec) (wid : Nat) : Option WalletRec :=
  ws.find? fun w => w.id == wid

/-- Primary-key read on the orders table. -/
def orderRow (os : List OrderRec) (oid : Nat) : Option OrderRec :=
  os.find? fun o => o.id == oid

/-- Primary-key read on the pnls table. -/
def pnlRow (ps : List PnLRec) (pid : Nat) : Option PnLRec :=
  ps.find? fun p => p.id == pid

/-- The native mint address compared against selectedInputMint and
selectedOutputMint in transactionalCreateOrderAndSendToNetwork. -/
def wsolMint : String := "So11111111111111111111111111111111111111112"

/-- Observable effects of one submission, in program order.  commitUnit is
the commit of the surrounding sequelize transaction; broadcast is the
txExecutor.execute network send. -/
inductive Ev
  | insertWallet
  | saveUser
  | insertOrder
  | reserveBalance
  | broadcast
  | commitUnit
deriving DecidableEq, Repr

inductive SubmitError
  | userNotFound
  | noPoolAddress
  | marketNotFound
  | inputWalletLocked
deriving DecidableEq, Repr

/-- Arguments of transactionalCreateOrderAndSendToNetwork.  txSignature is
the base58 encoding of transaction.signatures[0], computed by the caller. -/
structure SubmitArgs where
  userId : Nat
  txSignature : String
  inputATA : String
  outputATA : String
  rawAmount : Int
  amountInUsd : ℚ
  ourFeeInLamports : Int
  priorityFee : Nat
  recentBlockhash : BlockHash
  limitOrder : Option String
  dcaPubKey : Option String
deriving DecidableEq, Repr

structure SubmitResult where
  ok : Bool
  error : Option SubmitError
  db : Db
  newOrder : Option OrderRec
  trace : List Ev
deriving DecidableEq, Repr

/-- Rows resolved by the lookups at the start of
transactionalCreateOrderAndSendToNetwork (wallet.model.ts lines 268-372). -/
structure SubmitCtx where
  user : UserRec
  defaultWallet : WalletRec
  pool : String
  market : MarketRec
  quoteToken : TokenRec
  inputWallet : WalletRec
  inputToken : TokenRec
  outputWalletAddr : String
  existingOutputWallet : Option WalletRec
deriving DecidableEq, Repr

/-- The User.findOne of wallet.model.ts line 268: the defaultWallet and its
key are required inner joins, so a user without them resolves to null. -/
def resolveUserWithDefaultWallet (db : Db) (uid : Nat) :
    Option (UserRec × WalletRec) :=
  (db.users.find? fun u => u.id == uid).bind fun u =>
  u.defaultWalletId.bind fun dwid =>
  (db.wallets.find? fun w => w.id == dwid).bind fun w =>
  if db.keys.contains w.keyId then some (u, w) else none

/-- Lookup phase of transactionalCreateOrderAndSendToNetwork: user with
default wallet, pool address, market (with required quoteToken join),
input wallet by address (with required token join), output wallet by
address (plain find, may be absent).  Any failure aborts the unit of work
with no effect. -/
def submitLookups (db : Db) (a : SubmitArgs) : Except SubmitError SubmitCtx :=
  match resolveUserWithDefaultWallet db a.userId with
  | none => .error .userNotFound
  | some (user, defaultWallet) =>
    match user.selectedPoolAddress with
    | none => .error .noPoolAddress
    | some pool =>
      let inputWalletAddr :=
        if user.selectedInputMint != some wsolMint then a.inputATA
        else defaultWallet.address
      let outputWalletAddr :=
        if user.selectedOutputMint != some wsolMint then a.outputATA
        else defaultWallet.address
      match (db.markets.find? fun m => m.poolAddress == pool).bind
          (fun m => (db.tokens.find? fun tk => tk.id == m.quoteTokenId).map
            (fun tk => (m, tk))) with
      | none => .error .marketNotFound
      | some (market, quoteToken) =>
        match (db.wallets.find? fun w => w.address == inputWalletAddr).bind
            (fun w => (db.tokens.find? fun tk => tk.id == w.tokenId).map
              (fun tk => (w, tk))) with
        | none => .error .inputWalletLocked
        | some (inputWallet, inputToken) =>
          .ok { user := user, defaultWallet := defaultWallet, pool := pool,
                market := market, quoteToken := quoteToken,
                inputWallet := inputWallet, inputToken := inputToken,
                outputWalletAddr := outputWalletAddr,
                existingOutputWallet :=
                  db.wallets.find? fun w => w.address == outputWalletAddr }

/-- The reset block of wallet.model.ts lines 394-411: the in-progress trade
selection is put back to its defaults and the transaction signature is
recorded, before the user row is saved. -/
def resetSelection (txSig : String) (u : UserRec) : UserRec :=
  { u with
    selectedTransactionId := some txSig
    selectedOrderDirection := .buy
    selectedOrderType := .swap
    selectedPoolAddress := none
    selectedInputMint := none
    selectedOutputMint := none
    selectedEstimatedOutput := none
    selectedInputDecimals := 0
    selectedOutputDecimals := 0
    selectedPriceImpact := 0
    selectedSellAmount := 0
    selectedTokenUsdPrice := 0
    selectedDCAInAmount := 0
    selectedDCAInAmountPerCycle := 0
    selectedDCACycleSecondsApart := 0 }

/-- Effect phase of transactionalCreateOrderAndSendToNetwork (lines
373-458).  The output wallet is created lazily if absent; the user row is
reset and saved; the Order row is inserted; the reservation moves the
amount from confirmed to unconfirmed balance; the signed transaction is
broadcast; then the unit of work commits.  The Order's orderDirection and
orderType are read from the user record after the reset block ran
(source lines 396-397 run before the Order.create of line 415). -/
def submitApply (db : Db) (a : SubmitArgs) (c : SubmitCtx) : SubmitResult :=
  let created := c.existingOutputWallet.isNone
  let outputWallet : WalletRec :=
    match c.existingOutputWallet with
    | some w => w
    | none =>
      { id := db.nextWalletId
        userId := c.user.id
        parentId := c.user.defaultWalletId
        tokenId :=
          if c.inputToken.contractAddress == c.quoteToken.contractAddress
          then c.market.baseTokenId else c.market.quoteTokenId
        keyId := c.defaultWallet.keyId
        address := c.outputWalletAddr
        confirmedBalance := 0
        unconfirmedBalance := 0 }
  let db1 :=
    if created then
      { db with wallets := db.wallets ++ [outputWallet],
                nextWalletId := db.nextWalletId + 1 }
    else db
  let user' := resetSelection a.txSignature c.user
  let newOrder : OrderRec :=
    { id := db1.nextOrderId
      userId := c.user.id
      marketId := c.market.id
      inputWalletId := c.inputWallet.id
      outputWalletId := outputWallet.id
      transactionId := some a.txSignature
      inAmount := a.rawAmount
      inAmountInUsd := a.amountInUsd
      outAmount := none
      commission := a.ourFeeInLamports
      networkFee := 0
      orderType := user'.selectedOrderType
      orderDirection := user'.selectedOrderDirection
      limitOrder := a.limitOrder
      dcaPubKey := a.dcaPubKey
      succeeded := false
      status := .submitted
      details := some { recentBlockHash := some a.recentBlockhash,
                        estimatedPriorityFee := some a.priorityFee } }
  let db2 :=
    { db1 with
      users := db1.users.map fun u => if u.id == user'.id then user' else u
      orders := db1.orders ++ [newOrder]
      nextOrderId := db1.nextOrderId + 1
      wallets := updateWalletRow db1.wallets c.inputWallet.id fun w =>
        { w with confirmedBalance := w.confirmedBalance - a.rawAmount,
                 unconfirmedBalance := w.unconfirmedBalance + a.rawAmount } }
  { ok := true
    error := none
    db := db2
    newOrder := some newOrder
    trace := (if created then [Ev.insertWallet] else []) ++
      [Ev.saveUser, Ev.insertOrder, Ev.reserveBalance, Ev.broadcast,
       Ev.commitUnit] }

/-- Embeds transactionalCreateOrderAndSendToNetwork of
src/src/database/models/wallet.model.ts lines 246-460: one atomic unit of
work; on a lookup failure the transaction rolls back and nothing changes. -/
def transactionalCreateOrderAndSendToNetwork (db : Db) (a : SubmitArgs) :
    SubmitResult :=
  match submitLookups db a with
  | .error e =>
    { ok := false, error := some e, db := db, newOrder := none, trace := [] }
  | .ok c => submitApply db a c

/-- One entry of meta.preTokenBalances / meta.postTokenBalances. -/
structure TokenBalanceEntry where
  mint : String
  owner : Option String
  amount : Int
deriving DecidableEq, Repr

/-- meta of a parsed transaction.  errored embeds meta.err being non-null. -/
structure TxMeta where
  errored : Bool
  fee : Int
  preBalances : List Int
  postBalances : List Int
  preTokenBalances : List TokenBalanceEntry
  postTokenBalances : List TokenBalanceEntry
deriving DecidableEq, Repr

/-- Result of getParsedTransaction; meta can be absent. -/
structure TxInfo where
  accountKeys : List String
  meta : Option TxMeta
deriving DecidableEq, Repr

/-- Outcome of the confirmTransaction RPC call: it resolved, it threw
TransactionExpiredBlockheightExceededError, or it threw anything else
(including the explicit throw when it resolved to a falsy value). -/
inductive ConfirmOutcome
  | landed
  | expiredBlockheight
  | rpcFailure
deriving DecidableEq, Repr

/-- Network responses observed during one checkConfirmation run: the
confirmTransaction outcome, the getParsedTransaction result (the source
calls it at most once per run), and the native-mint USD price returned by
getPoolInfoByTokenAddress. -/
structure NetEnv where
  confirmRes : ConfirmOutcome
  parsedTx : Option TxInfo
  solPriceUsd : ℚ
deriving DecidableEq, Repr

inductive CheckOutcome
  | alreadyProcessed
  | settledFailed
  | settledConfirmed
  | errorLogged
deriving DecidableEq, Repr

structure CheckResult where
  db : Db
  outcome : CheckOutcome
  lookupCount : Nat
deriving DecidableEq, Repr

/-- Embeds calculateBaseTokenChanges (check-confirmation.ts lines 240-267):
the last matching postTokenBalances amount, minus every matching
preTokenBalances amount. -/
def calculateBaseTokenChanges (m : TxMeta) (mintAddress ownerAddress : String) :
    Int :=
  let post := m.postTokenBalances.foldl
    (fun acc e =>
      if e.mint == mintAddress && e.owner == some ownerAddress then e.amount
      else acc) 0
  m.preTokenBalances.foldl
    (fun acc e =>
      if e.mint == mintAddress && e.owner == some ownerAddress then
        acc - e.amount
      else acc) post

/-- Embeds calculateQuoteTokenBalanceChange (lines 270-283): the native
balance delta of the default wallet's account index; none embeds the
run-time failure (BN of NaN) when the wallet is not among the account keys
or the balances arrays are too short. -/
def calculateQuoteTokenBalanceChange (accountKeys : List String) (m : TxMeta)
    (defaultWalletAddress : String) : Option Int :=
  match accountKeys.findIdx? (fun k => k == defaultWalletAddress) with
  | none => none
  | some i =>
    match m.postBalances.get? i, m.preBalances.get? i with
    | some post, some pre => some (post - pre)
    | _, _ => none

/-- Embeds calculateTransactionFee (lines 286-293): total native balance
destroyed by the transaction. -/
def calculateTransactionFee (m : TxMeta) : Int :=
  m.preBalances.foldl (· + ·) 0 - m.postBalances.foldl (· + ·) 0

/-- Embeds updateWalletBalances (lines 325-372): release (and on failure
refund) the reservation on the input wallet; on a buy, debit the
fee-paying wallet by commission (only when the transaction succeeded)
plus the network fee; on success, credit the output wallet. -/
def updateWalletBalances (orderDirection : OrderDirection)
    (orderInAmount orderOutAmount txFee commission : Int)
    (inputWalletId inputParentWalletId outputWalletId : Nat)
    (transactionSucceeded : Bool) (ws : List WalletRec) : List WalletRec :=
  let ws1 := updateWalletRow ws inputWalletId fun w =>
    { w with
      confirmedBalance := w.confirmedBalance +
        (if transactionSucceeded then 0 else orderInAmount)
      unconfirmedBalance := w.unconfirmedBalance - orderInAmount }
  let ws2 :=
    if orderDirection = .buy then
      updateWalletRow ws1 inputParentWalletId fun w =>
        { w with
          confirmedBalance := w.confirmedBalance -
            ((if transactionSucceeded then commission else 0) + txFee) }
    else ws1
  if transactionSucceeded then
    updateWalletRow ws2 outputWalletId fun w =>
      { w with confirmedBalance := w.confirmedBalance + orderOutAmount }
  else ws2

/-- The fee-paying wallet of an order: the input wallet's parent, or the
input wallet itself if it has none (the JS expression
order.inputWallet?.parentId! || order.inputWallet?.id!). -/
def feePayerWalletId (inputWallet : WalletRec) : Nat :=
  inputWallet.parentId.getD inputWallet.id

/-- Embeds handleTransactionFailure (lines 296-322): mark the order failed
with the given network fee and reverse the reservation. -/
def handleTransactionFailure (db : Db) (order : OrderRec)
    (inputWallet : WalletRec) (txFee : Int) (transactionSucceeded : Bool) :
    Db :=
  let order' :=
    { order with networkFee := txFee, status := .failed, succeeded := false }
  { db with
    orders := updateOrderRow db.orders order.id fun _ => order'
    wallets := updateWalletBalances order.orderDirection order.inAmount 0
      txFee 0 order.inputWalletId (feePayerWalletId inputWallet)
      order.outputWalletId transactionSucceeded db.wallets }

/-- Embeds updateOrCreatePnL (lines 375-455).  With no open position for
the wallet a fresh one is created seeded by the order's buy-side data
(isClosed takes the model default false); a buy accumulates the buy side;
a sell accumulates the sell side and sets isClosed from the comparison of
the updated sell quantity (computed from the previously read row) with
the previously read buy quantity. -/
def updateOrCreatePnL (db : Db) (baseWalletId : Nat) (order : OrderRec)
    (baseTokenBalanceChange quoteTokenBalanceChange : Int)
    (solPriceUsd : ℚ) : Db :=
  match db.pnls.find? (fun p => p.walletId == baseWalletId &&
      p.isClosed == false) with
  | none =>
    let p : PnLRec :=
      { id := db.nextPnlId
        walletId := baseWalletId
        cumulativeBuyQuantity := baseTokenBalanceChange
        cumulativeBuyCostInSol := order.inAmount
        cumulativeBuyCostInUsd := order.inAmountInUsd
        cumulativeSellQuantity := 0
        cumulativeSellProceedsInSol := 0
        cumulativeSellProceedsInUsd := 0
        isClosed := false }
    { db with pnls := db.pnls ++ [p], nextPnlId := db.nextPnlId + 1 }
  | some pnl =>
    match order.orderDirection with
    | .buy =>
      { db with pnls := updatePnlRow db.pnls pnl.id fun p =>
          { p with
            cumulativeBuyQuantity :=
              p.cumulativeBuyQuantity + baseTokenBalanceChange
            cumulativeBuyCostInSol := p.cumulativeBuyCostInSol + order.inAmount
            cumulativeBuyCostInUsd :=
              p.cumulativeBuyCostInUsd + order.inAmountInUsd } }
    | .sell =>
      { db with pnls := updatePnlRow db.pnls pnl.id fun p =>
          { p with
            cumulativeSellQuantity :=
              p.cumulativeSellQuantity + order.inAmount
            cumulativeSellProceedsInSol :=
              p.cumulativeSellProceedsInSol + quoteTokenBalanceChange
            cumulativeSellProceedsInUsd :=
              p.cumulativeSellProceedsInUsd +
                solPriceUsd * ((quoteTokenBalanceChange : ℚ) / 1000000000)
            isClosed :=
              pnl.cumulativeSellQuantity + order.inAmount ==
                pnl.cumulativeBuyQuantity } }

/-- Embeds updateOrderWalletPnL (lines 458-501): the success settlement.
The order gets its realized outAmount (base delta on a buy, quote delta
on a sell), the network fee, status confirmed and succeeded true; wallet
balances and the PnL position are updated in the same unit of work. -/
def updateOrderWalletPnL (db : Db) (baseWalletId : Nat) (order : OrderRec)
    (inputWallet : WalletRec) (baseTokenBalanceChange txFee
    quoteTokenBalanceChange : Int) (transactionSucceeded : Bool)
    (solPriceUsd : ℚ) : Db :=
  let outAmt :=
    match order.orderDirection with
    | .buy => baseTokenBalanceChange
    | .sell => quoteTokenBalanceChange
  let order' :=
    { order with outAmount := some outAmt, networkFee := txFee,
                 status := .confirmed, succeeded := true }
  let db1 := { db with orders := updateOrderRow db.orders order.id fun _ => order' }
  let db2 := { db1 with wallets := (updateWalletBalances order.orderDirection
      order.inAmount outAmt txFee order.commission order.inputWalletId
      (feePayerWalletId inputWallet) order.outputWalletId transactionSucceeded
      db1.wallets) }
  updateOrCreatePnL db2 baseWalletId order' baseTokenBalanceChange
    quoteTokenBalanceChange solPriceUsd

/-- Rows resolved by getOrderById (lines 175-226): the order with its user,
the user's default wallet, and the input and output wallets with their
tokens; all joins are required. -/
structure OrderCtx where
  order : OrderRec
  user : UserRec
  defaultWallet : WalletRec
  inputWallet : WalletRec
  inputToken : TokenRec
  outputWallet : WalletRec
  outputToken : TokenRec
deriving DecidableEq, Repr

/-- Embeds getOrderById (lines 175-226). -/
def getOrderById (db : Db) (orderId : Nat) : Option OrderCtx :=
  (db.orders.find? fun o => o.id == orderId).bind fun o =>
  (db.users.find? fun u => u.id == o.userId).bind fun u =>
  (u.defaultWalletId.bind fun dwid =>
      db.wallets.find? fun w => w.id == dwid).bind fun dw =>
  (db.wallets.find? fun w => w.id == o.inputWalletId).bind fun iw =>
  (db.tokens.find? fun tk => tk.id == iw.tokenId).bind fun itk =>
  (db.wallets.find? fun w => w.id == o.outputWalletId).bind fun ow =>
  (db.tokens.find? fun tk => tk.id == ow.tokenId).map fun otk =>
  { order := o, user := u, defaultWallet := dw, inputWallet := iw,
    inputToken := itk, outputWallet := ow, outputToken := otk }

/-- The truthiness test of check-confirmation.ts lines 39-49 on
order.details.recentBlockHash and its two fields. -/
def hasValidBlockhash (o : OrderRec) : Bool :=
  match o.details with
  | some d =>
    match d.recentBlockHash with
    | some rbh => rbh.lastValidBlockHeight != 0 && rbh.blockhash != ""
    | none => false
  | none => false

/-- Settlement of a parsed transaction (check-confirmation.ts lines
112-168): an execution error settles the order as failed with the fee
from the metadata; otherwise the base and quote deltas and the network
fee are computed from the metadata and the order is settled as confirmed. -/
def settleParsedTransaction (db : Db) (c : OrderCtx) (info : TxInfo)
    (solPriceUsd : ℚ) : Db × CheckOutcome :=
  if (info.meta.map (fun m => m.errored)).getD false then
    (handleTransactionFailure db c.order c.inputWallet
      ((info.meta.map (fun m => m.fee)).getD 0) false, .settledFailed)
  else
    match info.meta with
    | none => (db, .errorLogged)
    | some m =>
      let baseWallet :=
        match c.order.orderDirection with
        | .buy => c.outputWallet
        | .sell => c.inputWallet
      let baseToken :=
        match c.order.orderDirection with
        | .buy => c.outputToken
        | .sell => c.inputToken
      let baseChange := calculateBaseTokenChanges m baseToken.contractAddress
        c.defaultWallet.address
      match calculateQuoteTokenBalanceChange info.accountKeys m
          c.defaultWallet.address with
      | none => (db, .errorLogged)
      | some quoteChange =>
        let txFee := calculateTransactionFee m
        (updateOrderWalletPnL db baseWallet.id c.order c.inputWallet
          baseChange txFee quoteChange true solPriceUsd, .settledConfirmed)

/-- Embeds checkConfirmation (check-confirmation.ts lines 19-172).  Every
thrown error is caught by the surrounding try/catch and only logged, so
such runs leave the store unchanged.  lookupCount counts the
getParsedTransaction calls the run performs. -/
def checkConfirmation (db : Db) (orderId : Nat) (env : NetEnv) : CheckResult :=
  match getOrderById db orderId with
  | none => ⟨db, .errorLogged, 0⟩
  | some c =>
    if !c.order.transactionId.isSome then ⟨db, .errorLogged, 0⟩
    else if !hasValidBlockhash c.order then ⟨db, .errorLogged, 0⟩
    else if c.order.status == .confirmed || c.order.status == .failed then
      ⟨db, .alreadyProcessed, 0⟩
    else
      match env.confirmRes with
      | .rpcFailure => ⟨db, .errorLogged, 0⟩
      | .expiredBlockheight =>
        match env.parsedTx with
        | none =>
          ⟨handleTransactionFailure db c.order c.inputWallet 0 false,
            .settledFailed, 1⟩
        | some info =>
          let r := settleParsedTransaction db c info env.solPriceUsd
          ⟨r.1, r.2, 1⟩
      | .landed =>
        match env.parsedTx with
        | none => ⟨db, .errorLogged, 1⟩
        | some info =>
          let r := settleParsedTransaction db c info env.solPriceUsd
          ⟨r.1, r.2, 1⟩

/-- The cron job's candidate selection (src/unnamed/part_010 lines 14-21):
only orders whose status is exactly submitted are read. -/
def selectOrders (os : List OrderRec) : List OrderRec :=
  os.filter fun o => o.status == .submitted

inductive CreateError
  | insufficientBalance
  | walletNotFound
  | buildFailed
deriving DecidableEq, Repr

/-- Embeds getWalletBalance of src/unnamed/part_007 lines 396-432: the
user's wallet whose token contract address matches the mint (a required
join), with its confirmedBalance scaled down by the token's unit
decimals. -/
def getWalletBalance (db : Db) (userId : Nat) (inputMint : String) :
    Option (WalletRec × TokenRec × ℚ) :=
  (db.wallets.find? fun w => w.userId == userId &&
      ((db.tokens.find? fun tk => tk.id == w.tokenId).map
        (fun tk => tk.contractAddress == inputMint)).getD false).bind fun w =>
  (db.tokens.find? fun tk => tk.id == w.tokenId).map fun tk =>
    (w, tk, (w.confirmedBalance : ℚ) / (10 : ℚ) ^ tk.unitDecimals)

/-- Embeds the balance re-validation of the create route handler
(src/unnamed/part_011 lines 179-198): on a buy the selected input amount
is compared against the default wallet's confirmedBalance scaled by the
selected input decimals; on a sell the selected sell amount is compared
against the sell wallet's scaled confirmedBalance from getWalletBalance.
The source throws when the wallet lookup fails or the amount exceeds the
available balance. -/
def checkSwapBalance (db : Db) (user : UserRec) (defaultWallet : WalletRec) :
    Except CreateError Unit :=
  let buyBalance : ℚ :=
    (defaultWallet.confirmedBalance : ℚ) /
      (10 : ℚ) ^ user.selectedInputDecimals
  match user.selectedOrderDirection with
  | .buy =>
    if buyBalance < user.selectedInputAmount then .error .insufficientBalance
    else .ok ()
  | .sell =>
    match user.selectedInputMint.bind
        (fun mint => getWalletBalance db user.id mint) with
    | none => .error .walletNotFound
    | some (_, _, sellBalance) =>
      if sellBalance < user.selectedSellAmount then
        .error .insufficientBalance
      else .ok ()

inductive CreateOutcome
  | err (e : CreateError)
  | submitted (r : SubmitResult)
deriving DecidableEq, Repr

/-- Embeds the sequencing of the create route handler
(src/unnamed/part_011 lines 153-257): the balance is validated first;
only then is the swap transaction built (createSwapTransaction, an
external collaborator that may fail, given here as an optional result)
and the atomic submission unit invoked.  A validation or build failure
leaves the store untouched. -/
def create (db : Db) (user : UserRec) (defaultWallet : WalletRec)
    (buildTx : Option SubmitArgs) : CreateOutcome × Db :=
  match checkSwapBalance db user defaultWallet with
  | .error e => (.err e, db)
  | .ok _ =>
    match buildTx with
    | none => (.err .buildFailed, db)
    | some a =>
      let r := transactionalCreateOrderAndSendToNetwork db a
      (.submitted r, r.db)

/-- The statuses the engine can actually store on an order. -/
def StatusOk (o : OrderRec) : Prop :=
  o.status = .submitted ∨ o.status = .confirmed ∨ o.status = .failed

/-- Well-formedness of the store's orders table: statuses are among the
ones the engine writes, ids are below the autoincrement counter, and ids
are pairwise distinct (primary key). -/
def DbInv (db : Db) : Prop :=
  (∀ o ∈ db.orders, StatusOk o) ∧
  (∀ o ∈ db.orders, o.id < db.nextOrderId) ∧
  db.orders.Pairwise fun a b => a.id ≠ b.id

/-- One step of the engine: a submission through the atomic coordinator
unit, or one reconciliation of one order (the cron pass of
src/unnamed/part_010 invokes checkConfirmation per selected order; the
route variant invokes it for an arbitrary order id). -/
inductive SysStep : Db → Db → Prop
  | submit (db : Db) (a : SubmitArgs) :
      SysStep db (transactionalCreateOrderAndSendToNetwork db a).db
  | reconcile (db : Db) (orderId : Nat) (env : NetEnv) :
      SysStep db (checkConfirmation db orderId env).db

/-! Concrete fixtures for the scenario runs (Scenario A/B/C of the spec
and the counterexample inputs). -/

def tokSol : TokenRec := { id := 1, contractAddress := wsolMint, unitDecimals := 9 }

def tokMeme : TokenRec := { id := 2, contractAddress := "tokenmint", unitDecimals := 6 }

/-- The user's default (native) wallet, Scenario A's input wallet. -/
def wSol : WalletRec :=
  { id := 10, userId := 1, parentId := none, tokenId := 1, keyId := 100,
    address := "walletsol", confirmedBalance := 1000000,
    unconfirmedBalance := 0 }

/-- The token wallet at the output associated token address. -/
def wMemeOut : WalletRec :=
  { id := 11, userId := 1, parentId := some 10, tokenId := 2, keyId := 100,
    address := "ataout", confirmedBalance := 0, unconfirmedBalance := 0 }

/-- A token wallet at the input associated token address (sell input). -/
def wMemeIn : WalletRec :=
  { id := 12, userId := 1, parentId := some 10, tokenId := 2, keyId := 100,
    address := "atain", confirmedBalance := 5000000, unconfirmedBalance := 0 }

def market1 : MarketRec :=
  { id := 5, poolAddress := "pool1", baseTokenId := 2, quoteTokenId := 1 }

/-- A user about to submit a buy (native in, token out). -/
def buyUser : UserRec :=
  { id := 1, defaultWalletId := some 10, selectedTransactionId := none,
    selectedOrderDirection := .buy, selectedOrderType := .swap,
    selectedPoolAddress := some "pool1",
    selectedInputMint := some wsolMint,
    selectedOutputMint := some "tokenmint",
    selectedEstimatedOutput := some "250",
    selectedInputDecimals := 9, selectedOutputDecimals := 6,
    selectedPriceImpact := 0, selectedInputAmount := (4 : ℚ) / 10000,
    selectedSellAmount := 0, selectedTokenUsdPrice := 1,
    selectedDCAInAmount := 0, selectedDCAInAmountPerCycle := 0,
    selectedDCACycleSecondsApart := 0 }

/-- The same user about to submit a sell (token in, native out). -/
def sellUser : UserRec :=
  { buyUser with
    selectedOrderDirection := .sell
    selectedInputMint := some "tokenmint"
    selectedOutputMint := some wsolMint
    selectedSellAmount := 4 }

def submitDbBuy : Db :=
  { users := [buyUser], wallets := [wSol, wMemeOut, wMemeIn],
    tokens := [tokSol, tokMeme], markets := [market1], orders := [],
    pnls := [], keys := [100], nextWalletId := 13, nextOrderId := 1000,
    nextPnlId := 1 }

def submitDbSell : Db := { submitDbBuy with users := [sellUser] }

/-- Scenario A's submission arguments: reserve 400,000 minor units. -/
def submitArgsA : SubmitArgs :=
  { userId := 1, txSignature := "sig1", inputATA := "atain",
    outputATA := "ataout", rawAmount := 400000, amountInUsd := 1,
    ourFeeInLamports := 2000, priorityFee := 0,
    recentBlockhash := { blockhash := "bh", lastValidBlockHeight := 50 },
    limitOrder := none, dcaPubKey := none }

/-- The lookup context Scenario A resolves to. -/
def submitCtxA : SubmitCtx :=
  { user := buyUser, defaultWallet := wSol, pool := "pool1",
    market := market1, quoteToken := tokSol, inputWallet := wSol,
    inputToken := tokSol, outputWalletAddr := "ataout",
    existingOutputWallet := some wMemeOut }

/-! Helper lemmas about the row-update and row-read primitives. -/

theorem find?_append_of_some {α} {p : α → Bool} {l1 l2 : List α} {a : α}
    (h : l1.find? p = some a) : (l1 ++ l2).find? p = some a := by
  rw [List.find?_append, h, Option.or]

/-- Reading a row after a guarded per-id update commutes with the update,
provided the update function does not change the id of the rows it is
applied to. -/
theorem find?_map_guard {α} (idOf : α → Nat) (xs : List α) (i j : Nat)
    (f : α → α) (hf : ∀ x, idOf x = i → idOf (f x) = i) :
    (xs.map fun x => if idOf x == i then f x else x).find?
        (fun x => idOf x == j) =
      (xs.find? fun x => idOf x == j).map
        (fun x => if idOf x == i then f x else x) := by
  induction xs with
  | nil => rfl
  | cons x xs ih =>
    simp only [List.map_cons]
    by_cases hx : idOf x = i
    · have hfx : idOf (f x) = i := hf x hx
      rw [if_pos (by simp [hx])]
      by_cases hj : idOf x = j
      · rw [List.find?_cons_of_pos _ (by simp [hfx, hx ▸ hj]),
          List.find?_cons_of_pos _ (by simp [hj])]
        simp [hx]
      · rw [List.find?_cons_of_neg _ (by simp [hfx]; omega),
          List.find?_cons_of_neg _ (by simp [hj]), ih]
    · rw [if_neg (by simp [hx])]
      by_cases hj : idOf x = j
      · rw [List.find?_cons_of_pos _ (by simp [hj]),
          List.find?_cons_of_pos _ (by simp [hj])]
        simp [hx]
      · rw [List.find?_cons_of_neg _ (by simp [hj]),
          List.find?_cons_of_neg _ (by simp [hj]), ih]

theorem walletRow_update (ws : List WalletRec) (i j : Nat)
    (f : WalletRec → WalletRec) (hf : ∀ w, w.id = i → (f w).id = i) :
    walletRow (updateWalletRow ws i f) j =
      (walletRow ws j).map fun w => if w.id == i then f w else w := by
  unfold walletRow updateWalletRow
  exact find?_map_guard (fun w => w.id) ws i j f hf

theorem orderRow_update (os : List OrderRec) (i j : Nat)
    (f : OrderRec → OrderRec) (hf : ∀ o, o.id = i → (f o).id = i) :
    orderRow (updateOrderRow os i f) j =
      (orderRow os j).map fun o => if o.id == i then f o else o := by
  unfold orderRow updateOrderRow
  exact find?_map_guard (fun o => o.id) os i j f hf

theorem pnlRow_update (ps : List PnLRec) (i j : Nat)
    (f : PnLRec → PnLRec) (hf : ∀ p, p.id = i → (f p).id = i) :
    pnlRow (updatePnlRow ps i f) j =
      (pnlRow ps j).map fun p => if p.id == i then f p else p := by
  unfold pnlRow updatePnlRow
  exact find?_map_guard (fun p => p.id) ps i j f hf

/-- updateOrCreatePnL only touches the pnls table and its counter. -/
theorem updateOrCreatePnL_frame (db : Db) (wid : Nat) (order : OrderRec)
    (bc qc : Int) (price : ℚ) :
    (updateOrCreatePnL db wid order bc qc price).orders = db.orders ∧
    (updateOrCreatePnL db wid order bc qc price).wallets = db.wallets ∧
    (updateOrCreatePnL db wid order bc qc price).users = db.users ∧
    (updateOrCreatePnL db wid order bc qc price).nextOrderId =
      db.nextOrderId := by
  unfold updateOrCreatePnL
  cases db.pnls.find? fun p => p.walletId == wid && p.isClosed == false with
  | none => exact ⟨rfl, rfl, rfl, rfl⟩
  | some pnl => cases order.orderDirection <;> exact ⟨rfl, rfl, rfl, rfl⟩

theorem updateOrCreatePnL_orders (db : Db) (wid : Nat) (order : OrderRec)
    (bc qc : Int) (price : ℚ) :
    (updateOrCreatePnL db wid order bc qc price).orders = db.orders :=
  (updateOrCreatePnL_frame db wid order bc qc price).1

theorem updateOrCreatePnL_wallets (db : Db) (wid : Nat) (order : OrderRec)
    (bc qc : Int) (price : ℚ) :
    (updateOrCreatePnL db wid order bc qc price).wallets = db.wallets :=
  (updateOrCreatePnL_frame db wid order bc qc price).2.1

theorem updateOrCreatePnL_nextOrderId (db : Db) (wid : Nat)
    (order : OrderRec) (bc qc : Int) (price : ℚ) :
    (updateOrCreatePnL db wid order bc qc price).nextOrderId =
      db.nextOrderId :=
  (updateOrCreatePnL_frame db wid order bc qc price).2.2.2

/-- Two rows of a pairwise-id-distinct table with the same id are the same
row. -/
theorem eq_of_mem_of_id_eq {α} (idOf : α → Nat) {xs : List α}
    (hp : xs.Pairwise fun a b => idOf a ≠ idOf b) {a b : α}
    (ha : a ∈ xs) (hb : b ∈ xs) (hid : idOf a = idOf b) : a = b := by
  induction xs with
  | nil => cases ha
  | cons x xs ih =>
    rcases List.pairwise_cons.mp hp with ⟨hx, hp'⟩
    rcases List.mem_cons.mp ha with ha' | ha' <;>
      rcases List.mem_cons.mp hb with hb' | hb'
    · rw [ha', hb']
    · exact absurd hid (ha' ▸ hx b hb')
    · exact absurd hid.symm (hb' ▸ hx a ha')
    · exact ih hp' ha' hb'

/-- A successful getOrderById returns the row found by the primary-key
read of the orders table. -/
theorem getOrderById_some_order {db : Db} {oid : Nat} {c : OrderCtx}
    (h : getOrderById db oid = some c) :
    orderRow db.orders oid = some c.order := by
  unfold getOrderById at h
  cases ho : db.orders.find? fun o => o.id == oid with
  | none => rw [ho] at h; simp at h
  | some o =>
    rw [ho, Option.some_bind] at h
    cases h1 : db.users.find? fun u => u.id == o.userId with
    | none => rw [h1] at h; simp at h
    | some u =>
      rw [h1, Option.some_bind] at h
      cases h2 : u.defaultWalletId.bind
          (fun dwid => db.wallets.find? fun w => w.id == dwid) with
      | none => rw [h2] at h; simp at h
      | some dw =>
        rw [h2, Option.some_bind] at h
        cases h3 : db.wallets.find? fun w => w.id == o.inputWalletId with
        | none => rw [h3] at h; simp at h
        | some iw =>
          rw [h3, Option.some_bind] at h
          cases h4 : db.tokens.find? fun tk => tk.id == iw.tokenId with
          | none => rw [h4] at h; simp at h
          | some itk =>
            rw [h4, Option.some_bind] at h
            cases h5 : db.wallets.find? fun w => w.id == o.outputWalletId with
            | none => rw [h5] at h; simp at h
            | some ow =>
              rw [h5, Option.some_bind] at h
              cases h6 : db.tokens.find? fun tk => tk.id == ow.tokenId with
              | none => rw [h6] at h; simp at h
              | some otk =>
                rw [h6, Option.map_some'] at h
                injection h with h
                rw [orderRow, ← h]
                simpa using ho

/-- The per-wallet effect of one updateWalletBalances call, as a single
function of the row. -/
def applyBalanceDelta (orderDirection : OrderDirection)
    (orderInAmount orderOutAmount txFee commission : Int)
    (inputWalletId inputParentWalletId outputWalletId : Nat)
    (transactionSucceeded : Bool) (w : WalletRec) : WalletRec :=
  let w1 :=
    if w.id == inputWalletId then
      { w with
        confirmedBalance := w.confirmedBalance +
          (if transactionSucceeded then 0 else orderInAmount)
        unconfirmedBalance := w.unconfirmedBalance - orderInAmount }
    else w
  let w2 :=
    if orderDirection = .buy then
      (if w1.id == inputParentWalletId then
        { w1 with
          confirmedBalance := w1.confirmedBalance -
            ((if transactionSucceeded then commission else 0) + txFee) }
      else w1)
    else w1
  if transactionSucceeded then
    (if w2.id == outputWalletId then
      { w2 with confirmedBalance := w2.confirmedBalance + orderOutAmount }
    else w2)
  else w2

/-- Reading any row after updateWalletBalances sees the composite
per-wallet delta applied to the old row. -/
theorem walletRow_updateWalletBalances (dir : OrderDirection)
    (amt out fee com : Int) (iid pid oid wid : Nat) (succ : Bool)
    (ws : List WalletRec) :
    walletRow (updateWalletBalances dir amt out fee com iid pid oid succ ws)
        wid =
      (walletRow ws wid).map
        (applyBalanceDelta dir amt out fee com iid pid oid succ) := by
  unfold updateWalletBalances
  by_cases hdir : dir = .buy <;> cases succ <;>
    simp only [hdir, if_true, if_false, Bool.false_eq_true, reduceIte] <;>
    (try rw [walletRow_update]) <;>
    (try rw [walletRow_update]) <;>
    (try rw [walletRow_update]) <;>
    first
    | (intro w h; exact h)
    | (cases hw : walletRow ws wid with
       | none => simp
       | some w => simp [applyBalanceDelta, hdir])

theorem walletRow_id {ws : List WalletRec} {wid : Nat} {w : WalletRec}
    (h : walletRow ws wid = some w) : w.id = wid := by
  have := @List.find?_some WalletRec (fun x => x.id == wid) w ws h
  simpa using this

theorem orderRow_id {os : List OrderRec} {oid : Nat} {o : OrderRec}
    (h : orderRow os oid = some o) : o.id = oid := by
  have := @List.find?_some OrderRec (fun x => x.id == oid) o os h
  simpa using this

theorem pnlRow_id {ps : List PnLRec} {pid : Nat} {p : PnLRec}
    (h : pnlRow ps pid = some p) : p.id = pid := by
  have := @List.find?_some PnLRec (fun x => x.id == pid) p ps h
  simpa using this

/-! Settlement fixtures: the store as it looks after Scenario A's
submission, plus a reserved sell order used by the failure scenarios. -/

/-- Scenario A's input wallet after the reservation. -/
def wSolAfterA : WalletRec :=
  { wSol with confirmedBalance := 600000, unconfirmedBalance := 400000 }

/-- The token input wallet with a 400,000 reservation in flight. -/
def wMemeInRes : WalletRec :=
  { wMemeIn with confirmedBalance := 4600000, unconfirmedBalance := 400000 }

/-- The blockhash details Scenario A stores on the order. -/
def detailsA : OrderDetails :=
  { recentBlockHash := some { blockhash := "bh", lastValidBlockHeight := 50 }
    estimatedPriorityFee := some 0 }

/-- The order Scenario A persists. -/
def orderA : OrderRec :=
  { id := 1000, userId := 1, marketId := 5, inputWalletId := 10,
    outputWalletId := 11, transactionId := some "sig1", inAmount := 400000,
    inAmountInUsd := 1, outAmount := none, commission := 2000,
    networkFee := 0, orderType := .swap, orderDirection := .buy,
    limitOrder := none, dcaPubKey := none, succeeded := false,
    status := .submitted, details := some detailsA }

/-- A reserved buy order whose input wallet is the token wallet (so its
fee payer is the parent wallet, id 10). -/
def orderBuyAlt : OrderRec :=
  { orderA with id := 1001, inputWalletId := 12 }

/-- A reserved sell order: token wallet in, native wallet out. -/
def orderSellFail : OrderRec :=
  { orderA with
    id := 1002
    orderDirection := .sell
    inputWalletId := 12
    outputWalletId := 10 }

/-- An order already settled as confirmed. -/
def orderDone : OrderRec :=
  { orderA with id := 1003, status := .confirmed, succeeded := true }

def settleDb : Db :=
  { submitDbBuy with
    wallets := [wSolAfterA, wMemeOut, wMemeInRes]
    orders := [orderA, orderBuyAlt, orderSellFail, orderDone]
    nextOrderId := 1004 }

/-- The join context the reconciler resolves for Scenario A's order. -/
def ctxA : OrderCtx :=
  { order := orderA, user := buyUser, defaultWallet := wSolAfterA,
    inputWallet := wSolAfterA, inputToken := tokSol,
    outputWallet := wMemeOut, outputToken := tokMeme }

/-! Claim theorems. -/

/-- C1: the spec requires the persisted Order to record the direction of
the submitted intent, but transactionalCreateOrderAndSendToNetwork runs
the selection-reset block (which sets selectedOrderDirection to buy)
before Order.create reads orderDirection from the user record, so a sell
intent is persisted as a buy order.  Concretely: a user whose selected
direction is sell submits, the unit of work succeeds, and the created
Order carries direction buy. -/
theorem C1_sell_intent_persisted_as_buy :
    sellUser.selectedOrderDirection = OrderDirection.sell ∧
    (transactionalCreateOrderAndSendToNetwork submitDbSell submitArgsA).ok =
      true ∧
    ((transactionalCreateOrderAndSendToNetwork submitDbSell
        submitArgsA).newOrder.map fun o => o.orderDirection) =
      some OrderDirection.buy ∧
    OrderDirection.buy ≠ OrderDirection.sell :=
  ⟨rfl, by decide, by decide, by decide⟩

/-- C2: a successful run of the atomic submission unit debits the input
wallet's confirmed balance by the reserved amount, credits its
unconfirmed balance by the same amount, and persists the new Order with
status submitted and inAmount equal to the reserved amount. -/
theorem C2_reserve_on_submit (db : Db) (a : SubmitArgs) (c : SubmitCtx)
    (iwRow : WalletRec)
    (hlook : submitLookups db a = .ok c)
    (hrow : walletRow db.wallets c.inputWallet.id = some iwRow) :
    (transactionalCreateOrderAndSendToNetwork db a).ok = true ∧
    ((transactionalCreateOrderAndSendToNetwork db a).newOrder.map
        fun o => (o.status, o.inAmount)) =
      some (OrderStatus.submitted, a.rawAmount) ∧
    (walletRow (transactionalCreateOrderAndSendToNetwork db a).db.wallets
        c.inputWallet.id).map
      (fun w => (w.confirmedBalance, w.unconfirmedBalance)) =
      some (iwRow.confirmedBalance - a.rawAmount,
            iwRow.unconfirmedBalance + a.rawAmount) := by
  have hrow' : db.wallets.find? (fun w => w.id == c.inputWallet.id) =
      some iwRow := hrow
  have hpred : (iwRow.id == c.inputWallet.id) = true :=
    @List.find?_some WalletRec (fun w => w.id == c.inputWallet.id) iwRow
      db.wallets hrow'
  have hpe : iwRow.id = c.inputWallet.id := by simpa using hpred
  simp only [transactionalCreateOrderAndSendToNetwork, hlook, submitApply]
  refine ⟨by trivial, by simp, ?_⟩
  rw [walletRow_update]
  · cases hc : c.existingOutputWallet with
    | some w =>
      simp only [hc, Option.isNone_some, Bool.false_eq_true, if_false]
      rw [hrow]
      simp [hpe]
    | none =>
      simp only [hc, Option.isNone_none, if_true]
      rw [show walletRow (db.wallets ++ [_]) c.inputWallet.id = some iwRow from
        find?_append_of_some hrow']
      simp [hpe]
  · intro w h
    exact h

/-- Scenario A: a wallet with confirmed balance 1,000,000 submits a buy
reserving 400,000; afterwards the balances are 600,000 / 400,000 and the
order is submitted. -/
theorem C2_reserve_on_submit_witness :
    submitLookups submitDbBuy submitArgsA = .ok submitCtxA ∧
    walletRow submitDbBuy.wallets submitCtxA.inputWallet.id = some wSol ∧
    (transactionalCreateOrderAndSendToNetwork submitDbBuy submitArgsA).ok =
      true ∧
    ((transactionalCreateOrderAndSendToNetwork submitDbBuy
        submitArgsA).newOrder.map fun o => (o.status, o.inAmount)) =
      some (OrderStatus.submitted, 400000) ∧
    (walletRow (transactionalCreateOrderAndSendToNetwork submitDbBuy
        submitArgsA).db.wallets submitCtxA.inputWallet.id).map
      (fun w => (w.confirmedBalance, w.unconfirmedBalance)) =
      some (600000, 400000) := by
  have h := C2_reserve_on_submit submitDbBuy submitArgsA submitCtxA wSol
    (by rfl) (by rfl)
  exact ⟨rfl, rfl, h.1, h.2.1, h.2.2⟩

/-- C3: the success settlement releases the reservation on the input
wallet (its unconfirmed balance decreases by inAmount, for every
configuration of wallets); on a buy it debits the fee-paying wallet — the
input wallet's parent, or the input wallet itself when it has no parent —
by commission plus network fee, while the release itself leaves the input
wallet's confirmed balance unchanged (when the fee payer is the input
wallet itself, its confirmed balance therefore moves exactly by the fee
debit); and it credits the output wallet's confirmed balance by the
realized outAmount (the base delta on a buy, the quote delta on a sell). -/
theorem C3_settle_success_balances (db : Db) (baseWalletId : Nat)
    (order : OrderRec) (iw : WalletRec) (baseChange txFee quoteChange : Int)
    (solPrice : ℚ) (inRow : WalletRec)
    (hin : walletRow db.wallets order.inputWalletId = some inRow) :
    ((walletRow (updateOrderWalletPnL db baseWalletId order iw baseChange
        txFee quoteChange true solPrice).wallets order.inputWalletId).map
      fun w => w.unconfirmedBalance) =
      some (inRow.unconfirmedBalance - order.inAmount) ∧
    (order.orderDirection = .buy →
      feePayerWalletId iw = order.inputWalletId →
      order.inputWalletId ≠ order.outputWalletId →
      ((walletRow (updateOrderWalletPnL db baseWalletId order iw baseChange
          txFee quoteChange true solPrice).wallets
          order.inputWalletId).map fun w => w.confirmedBalance) =
        some (inRow.confirmedBalance - (order.commission + txFee))) ∧
    (order.orderDirection = .buy →
      feePayerWalletId iw ≠ order.inputWalletId →
      (order.inputWalletId ≠ order.outputWalletId →
        ((walletRow (updateOrderWalletPnL db baseWalletId order iw
            baseChange txFee quoteChange true solPrice).wallets
            order.inputWalletId).map fun w => w.confirmedBalance) =
          some inRow.confirmedBalance) ∧
      (feePayerWalletId iw ≠ order.outputWalletId →
        ∀ feeRow, walletRow db.wallets (feePayerWalletId iw) =
            some feeRow →
          ((walletRow (updateOrderWalletPnL db baseWalletId order iw
              baseChange txFee quoteChange true solPrice).wallets
              (feePayerWalletId iw)).map fun w => w.confirmedBalance) =
            some (feeRow.confirmedBalance - (order.commission + txFee)))) ∧
    (order.orderDirection = .sell →
      order.inputWalletId ≠ order.outputWalletId →
      ((walletRow (updateOrderWalletPnL db baseWalletId order iw baseChange
          txFee quoteChange true solPrice).wallets
          order.inputWalletId).map fun w => w.confirmedBalance) =
        some inRow.confirmedBalance) ∧
    (order.outputWalletId ≠ order.inputWalletId →
      (order.orderDirection = .buy →
        order.outputWalletId ≠ feePayerWalletId iw) →
      ∀ outRow, walletRow db.wallets order.outputWalletId = some outRow →
        ((walletRow (updateOrderWalletPnL db baseWalletId order iw
            baseChange txFee quoteChange true solPrice).wallets
            order.outputWalletId).map fun w => w.confirmedBalance) =
          some (outRow.confirmedBalance +
            (match order.orderDirection with
             | .buy => baseChange
             | .sell => quoteChange))) := by
  have hinId : inRow.id = order.inputWalletId := walletRow_id hin
  have hw : (updateOrderWalletPnL db baseWalletId order iw baseChange txFee
      quoteChange true solPrice).wallets =
      updateWalletBalances order.orderDirection order.inAmount
        (match order.orderDirection with
         | .buy => baseChange
         | .sell => quoteChange) txFee order.commission order.inputWalletId
        (feePayerWalletId iw) order.outputWalletId true db.wallets := by
    unfold updateOrderWalletPnL
    exact (updateOrCreatePnL_frame _ _ _ _ _ _).2.1
  refine ⟨?_, ?_, ?_, ?_, ?_⟩
  · rw [hw, walletRow_updateWalletBalances, hin]
    cases hdir : order.orderDirection <;>
      (simp_all [applyBalanceDelta, hinId]
       try (split <;> (try split) <;> rfl))
  · intro hdir hfe hio
    rw [hw, walletRow_updateWalletBalances, hin]
    simp_all [applyBalanceDelta, hinId]
  · intro hdir hfe
    constructor
    · intro hio
      rw [hw, walletRow_updateWalletBalances, hin]
      simp_all [applyBalanceDelta, hinId, Ne.symm hfe]
    · intro hfo feeRow hfeeRow
      have hfeeId : feeRow.id = feePayerWalletId iw := walletRow_id hfeeRow
      rw [hw, walletRow_updateWalletBalances, hfeeRow]
      simp_all [applyBalanceDelta, hfeeId, hfo]
  · intro hdir hio
    rw [hw, walletRow_updateWalletBalances, hin]
    simp_all [applyBalanceDelta, hinId]
  · intro hoi himp outRow houtRow
    have houtId : outRow.id = order.outputWalletId := walletRow_id houtRow
    rw [hw, walletRow_updateWalletBalances, houtRow]
    cases hdir : order.orderDirection with
    | buy => simp_all [applyBalanceDelta, houtId, himp hdir]
    | sell => simp_all [applyBalanceDelta, houtId]

/-- Scenario B in the configuration the submission path produces: the
order's input wallet is the user's default wallet, which has no parent
and is therefore its own fee payer.  The reservation of 400,000 is
released (unconfirmed goes to zero); the fee payer is debited commission
2,000 plus network fee 5,000 = 7,000, so the input wallet's confirmed
balance moves from 600,000 to 593,000 by exactly the fee debit; and the
output wallet is credited the realized outAmount 250. -/
theorem C3_settle_success_balances_witness :
    wSolAfterA.parentId = none ∧
    feePayerWalletId wSolAfterA = orderA.inputWalletId ∧
    walletRow settleDb.wallets orderA.inputWalletId = some wSolAfterA ∧
    ((walletRow (updateOrderWalletPnL settleDb 11 orderA wSolAfterA
        250 5000 (-407000) true 1).wallets orderA.inputWalletId).map
      fun w => w.unconfirmedBalance) = some 0 ∧
    ((walletRow (updateOrderWalletPnL settleDb 11 orderA wSolAfterA
        250 5000 (-407000) true 1).wallets orderA.inputWalletId).map
      fun w => w.confirmedBalance) = some (600000 - 7000) ∧
    ((walletRow (updateOrderWalletPnL settleDb 11 orderA wSolAfterA
        250 5000 (-407000) true 1).wallets orderA.outputWalletId).map
      fun w => w.confirmedBalance) = some (0 + 250) := by
  have h := C3_settle_success_balances settleDb 11 orderA wSolAfterA
    250 5000 (-407000) 1 wSolAfterA (by rfl)
  refine ⟨rfl, rfl, rfl, h.1, ?_, ?_⟩
  · have h2 := h.2.1 rfl rfl (by decide)
    rw [h2]
    decide
  · have h5 := h.2.2.2.2 (by decide) (fun _ => by decide) wMemeOut (by rfl)
    rw [h5]
    decide

/-- C4 as stated is false: a failed sell order does not debit the network
fee from the fee-paying wallet.  The reserved sell order fails with a
real network fee of 5,000, yet the fee-paying parent wallet's confirmed
balance stays 600,000 instead of dropping to 595,000. -/
theorem C4_sell_failure_fee_not_debited :
    orderSellFail.orderDirection = OrderDirection.sell ∧
    feePayerWalletId wMemeInRes = 10 ∧
    ((walletRow (handleTransactionFailure settleDb orderSellFail wMemeInRes
        5000 false).wallets 10).map fun w => w.confirmedBalance) =
      some 600000 ∧
    (600000 : Int) ≠ 600000 - 5000 := by
  refine ⟨rfl, rfl, by decide, by decide⟩

/-- C4 amended: the failure settlement fully refunds the reservation on
the input wallet, and debits the network fee from the fee-paying wallet
only when the order is a buy; a failed sell order leaves every wallet
other than the input wallet untouched.  (With a zero fee, the never
landed case, the buy-side debit is zero as well.) -/
theorem C4_settle_failure_balances (db : Db) (order : OrderRec)
    (iw : WalletRec) (txFee : Int) (inRow : WalletRec)
    (hin : walletRow db.wallets order.inputWalletId = some inRow) :
    ((walletRow (handleTransactionFailure db order iw txFee false).wallets
        order.inputWalletId).map fun w => w.unconfirmedBalance) =
      some (inRow.unconfirmedBalance - order.inAmount) ∧
    (order.orderDirection = .buy → feePayerWalletId iw = order.inputWalletId →
      ((walletRow (handleTransactionFailure db order iw txFee false).wallets
          order.inputWalletId).map fun w => w.confirmedBalance) =
        some (inRow.confirmedBalance + order.inAmount - txFee)) ∧
    (order.orderDirection = .buy → feePayerWalletId iw ≠ order.inputWalletId →
      ((walletRow (handleTransactionFailure db order iw txFee false).wallets
          order.inputWalletId).map fun w => w.confirmedBalance) =
        some (inRow.confirmedBalance + order.inAmount) ∧
      ∀ feeRow, walletRow db.wallets (feePayerWalletId iw) = some feeRow →
        ((walletRow (handleTransactionFailure db order iw txFee
            false).wallets (feePayerWalletId iw)).map
          fun w => w.confirmedBalance) =
          some (feeRow.confirmedBalance - txFee)) ∧
    (order.orderDirection = .sell →
      ((walletRow (handleTransactionFailure db order iw txFee false).wallets
          order.inputWalletId).map fun w => w.confirmedBalance) =
        some (inRow.confirmedBalance + order.inAmount) ∧
      ∀ wid, wid ≠ order.inputWalletId →
        walletRow (handleTransactionFailure db order iw txFee
          false).wallets wid = walletRow db.wallets wid) := by
  have hinId : inRow.id = order.inputWalletId := walletRow_id hin
  have hw : (handleTransactionFailure db order iw txFee false).wallets =
      updateWalletBalances order.orderDirection order.inAmount 0 txFee 0
        order.inputWalletId (feePayerWalletId iw) order.outputWalletId
        false db.wallets := rfl
  refine ⟨?_, ?_, ?_, ?_⟩
  · rw [hw, walletRow_updateWalletBalances, hin]
    cases hdir : order.orderDirection <;>
      (simp_all [applyBalanceDelta, hinId]
       try (split <;> rfl))
  · intro hdir hfe
    rw [hw, walletRow_updateWalletBalances, hin]
    simp_all [applyBalanceDelta, hinId]
  · intro hdir hfe
    constructor
    · rw [hw, walletRow_updateWalletBalances, hin]
      simp_all [applyBalanceDelta, hinId, Ne.symm hfe]
    · intro feeRow hfeeRow
      have hfeeId : feeRow.id = feePayerWalletId iw := walletRow_id hfeeRow
      rw [hw, walletRow_updateWalletBalances, hfeeRow]
      simp_all [applyBalanceDelta, hfeeId]
  · intro hdir
    constructor
    · rw [hw, walletRow_updateWalletBalances, hin]
      simp_all [applyBalanceDelta, hinId]
    · intro wid hwid
      rw [hw, walletRow_updateWalletBalances]
      cases hx : walletRow db.wallets wid with
      | none => rfl
      | some w =>
        have hxId : w.id = wid := walletRow_id hx
        simp_all [applyBalanceDelta, hxId]

/-- Scenario C: the failed buy refunds 400,000 back to confirmed and
releases the reservation, minus the real network fee 5,000, ending at
995,000 confirmed and 0 unconfirmed on the input wallet (which is its
own fee payer). -/
theorem C4_settle_failure_balances_witness :
    walletRow settleDb.wallets orderA.inputWalletId = some wSolAfterA ∧
    ((walletRow (handleTransactionFailure settleDb orderA wSolAfterA 5000
        false).wallets orderA.inputWalletId).map
      fun w => w.unconfirmedBalance) = some 0 ∧
    ((walletRow (handleTransactionFailure settleDb orderA wSolAfterA 5000
        false).wallets orderA.inputWalletId).map
      fun w => w.confirmedBalance) = some 995000 := by
  have h := C4_settle_failure_balances settleDb orderA wSolAfterA 5000
    wSolAfterA (by rfl)
  exact ⟨rfl, h.1, h.2.1 rfl rfl⟩

/-- Claim C5's ordering property on one run's effect trace: every
broadcast happens strictly after a commit of the unit of work. -/
def broadcastOnlyAfterCommit (tr : List Ev) : Prop :=
  ∀ i j, tr.get? i = some Ev.broadcast → tr.get? j = some Ev.commitUnit →
    j < i

/-- C5 as stated is false: in a successful Scenario A run the broadcast
event precedes the commit of the database transaction (the source sends
the transaction inside the sequelize callback, before it commits). -/
theorem C5_broadcast_before_commit :
    (transactionalCreateOrderAndSendToNetwork submitDbBuy submitArgsA).ok =
      true ∧
    ¬ broadcastOnlyAfterCommit
      (transactionalCreateOrderAndSendToNetwork submitDbBuy
        submitArgsA).trace := by
  refine ⟨by decide, fun h => ?_⟩
  have := h 3 4 (by decide) (by decide)
  omega

/-- C5 amended: the broadcast happens inside the atomic unit, after the
user save, the order insertion and the balance reservation and
immediately before the commit; a run that aborts during the lookups
performs no broadcast. -/
theorem C5_broadcast_inside_unit (db : Db) (a : SubmitArgs) :
    ((transactionalCreateOrderAndSendToNetwork db a).ok = true →
      (transactionalCreateOrderAndSendToNetwork db a).trace =
        [Ev.saveUser, Ev.insertOrder, Ev.reserveBalance, Ev.broadcast,
         Ev.commitUnit] ∨
      (transactionalCreateOrderAndSendToNetwork db a).trace =
        [Ev.insertWallet, Ev.saveUser, Ev.insertOrder, Ev.reserveBalance,
         Ev.broadcast, Ev.commitUnit]) ∧
    ((transactionalCreateOrderAndSendToNetwork db a).ok = false →
      (transactionalCreateOrderAndSendToNetwork db a).trace = []) := by
  unfold transactionalCreateOrderAndSendToNetwork
  cases hl : submitLookups db a with
  | error e =>
    refine ⟨fun h => ?_, fun _ => rfl⟩
    simp at h
  | ok c =>
    refine ⟨fun _ => ?_, fun h => ?_⟩
    · unfold submitApply
      cases hc : c.existingOutputWallet with
      | some w => left; simp [hc]
      | none => right; simp [hc]
    · unfold submitApply at h
      simp at h

/-- A successful Scenario A run broadcasts as the last step before the
commit of the unit of work. -/
theorem C5_broadcast_inside_unit_witness :
    (transactionalCreateOrderAndSendToNetwork submitDbBuy submitArgsA).ok =
      true ∧
    (transactionalCreateOrderAndSendToNetwork submitDbBuy
        submitArgsA).trace =
      [Ev.saveUser, Ev.insertOrder, Ev.reserveBalance, Ev.broadcast,
       Ev.commitUnit] := by
  have hok : (transactionalCreateOrderAndSendToNetwork submitDbBuy
      submitArgsA).ok = true := by decide
  refine ⟨hok, ?_⟩
  rcases (C5_broadcast_inside_unit submitDbBuy submitArgsA).1 hok with h | h
  · exact h
  · exact absurd h (by decide)

/-- The failure settlement rewrites exactly the order's row: status
failed, succeeded false, networkFee as charged. -/
theorem orderRow_handleTransactionFailure (db : Db) (order : OrderRec)
    (iw : WalletRec) (fee : Int) (succ : Bool)
    (horder : orderRow db.orders order.id = some order) :
    orderRow (handleTransactionFailure db order iw fee succ).orders
        order.id =
      some { order with networkFee := fee, status := .failed,
                        succeeded := false } := by
  unfold handleTransactionFailure
  rw [orderRow_update]
  · rw [horder]
    simp
  · intro o h
    rfl

/-- The success settlement rewrites exactly the order's row: status
confirmed, succeeded true, realized outAmount and network fee. -/
theorem orderRow_updateOrderWalletPnL (db : Db) (bw : Nat)
    (order : OrderRec) (iw : WalletRec) (bc fee qc : Int) (succ : Bool)
    (price : ℚ)
    (horder : orderRow db.orders order.id = some order) :
    orderRow (updateOrderWalletPnL db bw order iw bc fee qc succ
        price).orders order.id =
      some { order with
        outAmount := some (match order.orderDirection with
          | .buy => bc
          | .sell => qc)
        networkFee := fee
        status := .confirmed
        succeeded := true } := by
  unfold updateOrderWalletPnL
  simp only [updateOrCreatePnL_orders]
  rw [orderRow_update]
  · rw [horder]
    simp
  · intro o h
    rfl

/-- C6: when the blockhash expired with no definitive outcome, the
reconciler performs exactly one more direct lookup by signature; if the
transaction is still not found the order is settled failed with zero
network fee; if it is found the run is identical to the ordinary
confirmed-path handling, where the fee comes from the transaction
metadata (meta.fee on an execution error, the pre/post native balance
difference on success). -/
theorem C6_expiry_one_lookup_then_settle (db : Db) (oid : Nat)
    (c : OrderCtx) (p : ℚ)
    (hctx : getOrderById db oid = some c)
    (htx : c.order.transactionId.isSome = true)
    (hbh : hasValidBlockhash c.order = true)
    (hnt : (c.order.status == OrderStatus.confirmed ||
            c.order.status == OrderStatus.failed) = false)
    (horder : orderRow db.orders c.order.id = some c.order) :
    ((checkConfirmation db oid ⟨.expiredBlockheight, none, p⟩).lookupCount =
        1 ∧
     (checkConfirmation db oid ⟨.expiredBlockheight, none, p⟩).outcome =
        .settledFailed ∧
     orderRow (checkConfirmation db oid
          ⟨.expiredBlockheight, none, p⟩).db.orders c.order.id =
        some { c.order with networkFee := 0, status := .failed,
                            succeeded := false }) ∧
    (∀ info : TxInfo,
      (checkConfirmation db oid
        ⟨.expiredBlockheight, some info, p⟩).lookupCount = 1 ∧
      checkConfirmation db oid ⟨.expiredBlockheight, some info, p⟩ =
        checkConfirmation db oid ⟨.landed, some info, p⟩) ∧
    (∀ info m, info.meta = some m → m.errored = true →
      orderRow (checkConfirmation db oid
          ⟨.expiredBlockheight, some info, p⟩).db.orders c.order.id =
        some { c.order with networkFee := m.fee, status := .failed,
                            succeeded := false }) ∧
    (∀ info m q, info.meta = some m → m.errored = false →
      calculateQuoteTokenBalanceChange info.accountKeys m
        c.defaultWallet.address = some q →
      (orderRow (checkConfirmation db oid
          ⟨.expiredBlockheight, some info, p⟩).db.orders c.order.id).map
        (fun o => (o.networkFee, o.status)) =
        some (calculateTransactionFee m, OrderStatus.confirmed)) := by
  have hred :
      checkConfirmation db oid ⟨.expiredBlockheight, none, p⟩ =
        ⟨handleTransactionFailure db c.order c.inputWallet 0 false,
          .settledFailed, 1⟩ := by
    simp [checkConfirmation, hctx, htx, hbh, hnt]
  have hredSome : ∀ info,
      checkConfirmation db oid ⟨.expiredBlockheight, some info, p⟩ =
        ⟨(settleParsedTransaction db c info p).1,
          (settleParsedTransaction db c info p).2, 1⟩ := by
    intro info
    simp [checkConfirmation, hctx, htx, hbh, hnt]
  have hredLand : ∀ info,
      checkConfirmation db oid ⟨.landed, some info, p⟩ =
        ⟨(settleParsedTransaction db c info p).1,
          (settleParsedTransaction db c info p).2, 1⟩ := by
    intro info
    simp [checkConfirmation, hctx, htx, hbh, hnt]
  refine ⟨?_, ?_, ?_, ?_⟩
  · rw [hred]
    exact ⟨rfl, rfl, orderRow_handleTransactionFailure db c.order
      c.inputWallet 0 false horder⟩
  · intro info
    rw [hredSome, hredLand]
    exact ⟨rfl, rfl⟩
  · intro info m hm herr
    rw [hredSome]
    have hsettle : settleParsedTransaction db c info p =
        (handleTransactionFailure db c.order c.inputWallet m.fee false,
          .settledFailed) := by
      unfold settleParsedTransaction
      simp [hm, herr]
    rw [hsettle]
    exact orderRow_handleTransactionFailure db c.order c.inputWallet m.fee
      false horder
  · intro info m q hm herr hq
    rw [hredSome]
    have hsettle : settleParsedTransaction db c info p =
        (updateOrderWalletPnL db
          (match c.order.orderDirection with
           | .buy => c.outputWallet
           | .sell => c.inputWallet).id c.order c.inputWallet
          (calculateBaseTokenChanges m
            (match c.order.orderDirection with
             | .buy => c.outputToken
             | .sell => c.inputToken).contractAddress
            c.defaultWallet.address)
          (calculateTransactionFee m) q true p, .settledConfirmed) := by
      unfold settleParsedTransaction
      simp [hm, herr, hq]
    rw [hsettle]
    rw [orderRow_updateOrderWalletPnL db _ c.order c.inputWallet _ _ q true
      p horder]
    rfl

/-- The expired-and-still-missing Scenario A order is settled failed with
zero network fee after exactly one further lookup. -/
theorem C6_expiry_one_lookup_then_settle_witness :
    getOrderById settleDb 1000 = some ctxA ∧
    (checkConfirmation settleDb 1000
      ⟨.expiredBlockheight, none, 1⟩).lookupCount = 1 ∧
    (checkConfirmation settleDb 1000
      ⟨.expiredBlockheight, none, 1⟩).outcome = .settledFailed ∧
    orderRow (checkConfirmation settleDb 1000
        ⟨.expiredBlockheight, none, 1⟩).db.orders 1000 =
      some { orderA with networkFee := 0, status := .failed,
                         succeeded := false } := by
  have h := C6_expiry_one_lookup_then_settle settleDb 1000 ctxA 1
    (by rfl) (by rfl) (by rfl) (by rfl) (by rfl)
  exact ⟨rfl, h.1.1, h.1.2.1, h.1.2.2⟩

/-- C7: settlement is idempotent on terminal orders: a direct
checkConfirmation invocation on an order already confirmed or failed
leaves the whole store untouched and settles nothing, and the cron
selection never returns such an order. -/
theorem C7_terminal_settlement_noop (db : Db) (oid : Nat) (env : NetEnv)
    (order : OrderRec)
    (hfound : orderRow db.orders oid = some order)
    (hterm : order.status = .confirmed ∨ order.status = .failed) :
    (checkConfirmation db oid env).db = db ∧
    (checkConfirmation db oid env).outcome ≠ .settledFailed ∧
    (checkConfirmation db oid env).outcome ≠ .settledConfirmed ∧
    order ∉ selectOrders db.orders := by
  have hsel : order ∉ selectOrders db.orders := by
    intro hmem
    rw [selectOrders, List.mem_filter] at hmem
    rcases hterm with h | h <;> simp [h] at hmem
  cases hctx : getOrderById db oid with
  | none =>
    refine ⟨?_, ?_, ?_, hsel⟩ <;> simp [checkConfirmation, hctx]
  | some c =>
    have hco : c.order = order := by
      have h2 := getOrderById_some_order hctx
      rw [hfound] at h2
      exact (Option.some_inj.mp h2).symm
    have hg : (c.order.status == OrderStatus.confirmed ||
        c.order.status == OrderStatus.failed) = true := by
      rcases hterm with h | h <;> simp [hco, h]
    have hone : checkConfirmation db oid env = ⟨db, .errorLogged, 0⟩ ∨
        checkConfirmation db oid env = ⟨db, .alreadyProcessed, 0⟩ := by
      simp only [checkConfirmation, hctx, hg]
      split
      · left; rfl
      · split
        · left; rfl
        · right; rfl
    rcases hone with h | h <;> rw [h] <;>
      exact ⟨rfl, by simp, by simp, hsel⟩

/-- Running the reconciler directly on the already-confirmed fixture
order changes nothing, and the selection predicate skips it. -/
theorem C7_terminal_settlement_noop_witness :
    orderRow settleDb.orders 1003 = some orderDone ∧
    (checkConfirmation settleDb 1003 ⟨.landed, none, 1⟩).db = settleDb ∧
    orderDone ∉ selectOrders settleDb.orders := by
  have h := C7_terminal_settlement_noop settleDb 1003 ⟨.landed, none, 1⟩
    orderDone (by rfl) (Or.inl rfl)
  exact ⟨rfl, h.1, h.2.2.2⟩

/-! Fixtures for the PnL accumulation claims: a fresh position built by a
buy, oversold by a sell, then topped up by a second buy. -/

/-- A sell of 100 base units against the same position. -/
def cxSell : OrderRec := { orderSellFail with inAmount := 100 }

/-- A sell of 50 base units that exactly matches the open buy quantity. -/
def cxSellClose : OrderRec := { orderSellFail with inAmount := 50 }

/-- First accumulate: a buy creating the position with base delta 50. -/
def cxStep1 : Db := updateOrCreatePnL submitDbBuy 11 orderA 50 0 1

/-- Second accumulate: a sell of 100 (more than the position holds). -/
def cxStep2 : Db := updateOrCreatePnL cxStep1 11 cxSell 0 100 1

/-- Third accumulate: a buy of 50 bringing buys level with sells. -/
def cxStep3 : Db := updateOrCreatePnL cxStep2 11 orderA 50 0 1

/-- The position as created by cxStep1. -/
def pnl1 : PnLRec :=
  { id := 1, walletId := 11, cumulativeBuyQuantity := 50,
    cumulativeBuyCostInSol := 400000, cumulativeBuyCostInUsd := 1,
    cumulativeSellQuantity := 0, cumulativeSellProceedsInSol := 0,
    cumulativeSellProceedsInUsd := 0, isClosed := false }

/-- C8 as stated is false: after the third accumulate (a buy) the
position has cumulativeSellQuantity equal to cumulativeBuyQuantity yet
isClosed is still false, because only the sell branch ever assigns
isClosed.  The state is reached from a fresh position purely by
accumulate operations. -/
theorem C8_buy_can_equalize_without_closing :
    orderA.orderDirection = OrderDirection.buy ∧
    ((pnlRow cxStep3.pnls 1).map fun p =>
      (p.cumulativeSellQuantity, p.cumulativeBuyQuantity, p.isClosed)) =
      some (100, 100, false) :=
  ⟨rfl, by decide⟩

/-- C8 amended: a sell accumulate sets isClosed to the comparison of the
updated cumulativeSellQuantity with cumulativeBuyQuantity (so after a
sell, isClosed holds iff the two are equal); a buy accumulate leaves
isClosed unchanged, and a freshly created position has isClosed false —
isClosed is only ever assigned by the sell branch. -/
theorem C8_isClosed_set_only_by_sell (db : Db) (wid : Nat)
    (order : OrderRec) (bc qc : Int) (price : ℚ) :
    (∀ pnl, db.pnls.find? (fun p => p.walletId == wid &&
        p.isClosed == false) = some pnl →
      pnlRow db.pnls pnl.id = some pnl →
      (order.orderDirection = .sell →
        ((pnlRow (updateOrCreatePnL db wid order bc qc price).pnls
            pnl.id).map fun p =>
          (p.isClosed, p.cumulativeSellQuantity, p.cumulativeBuyQuantity)) =
          some (pnl.cumulativeSellQuantity + order.inAmount ==
                  pnl.cumulativeBuyQuantity,
                pnl.cumulativeSellQuantity + order.inAmount,
                pnl.cumulativeBuyQuantity)) ∧
      (order.orderDirection = .buy →
        ((pnlRow (updateOrCreatePnL db wid order bc qc price).pnls
            pnl.id).map fun p => p.isClosed) = some pnl.isClosed)) ∧
    (db.pnls.find? (fun p => p.walletId == wid && p.isClosed == false) =
        none →
      (updateOrCreatePnL db wid order bc qc price).pnls =
        db.pnls ++
          [{ id := db.nextPnlId, walletId := wid,
             cumulativeBuyQuantity := bc,
             cumulativeBuyCostInSol := order.inAmount,
             cumulativeBuyCostInUsd := order.inAmountInUsd,
             cumulativeSellQuantity := 0,
             cumulativeSellProceedsInSol := 0,
             cumulativeSellProceedsInUsd := 0, isClosed := false }]) := by
  constructor
  · intro pnl hfind hrow
    constructor
    · intro hdir
      unfold updateOrCreatePnL
      rw [hfind, hdir]
      rw [pnlRow_update]
      · rw [hrow]
        simp [pnlRow_id hrow]
      · intro x h
        exact h
    · intro hdir
      unfold updateOrCreatePnL
      rw [hfind, hdir]
      rw [pnlRow_update]
      · rw [hrow]
        simp [pnlRow_id hrow]
      · intro x h
        exact h
  · intro hnone
    unfold updateOrCreatePnL
    rw [hnone]

/-- Scenario D shape: a sell of 50 against an open position with
cumulativeBuyQuantity 50 and cumulativeSellQuantity 0 flips isClosed to
true exactly when the updated sell quantity reaches the buy quantity. -/
theorem C8_isClosed_set_only_by_sell_witness :
    cxSellClose.orderDirection = OrderDirection.sell ∧
    ((pnlRow (updateOrCreatePnL cxStep1 11 cxSellClose 0 50 1).pnls
        1).map fun p =>
      (p.isClosed, p.cumulativeSellQuantity, p.cumulativeBuyQuantity)) =
      some (true, 50, 50) := by
  have h := (C8_isClosed_set_only_by_sell cxStep1 11 cxSellClose 0 50 1).1
    pnl1 (by rfl) (by rfl)
  have h2 := h.1 rfl
  refine ⟨rfl, ?_⟩
  have hid : pnlRow (updateOrCreatePnL cxStep1 11 cxSellClose 0 50 1).pnls 1 =
      pnlRow (updateOrCreatePnL cxStep1 11 cxSellClose 0 50 1).pnls
        pnl1.id := rfl
  rw [hid, h2]
  decide

/-- C9: the balance re-validation of the create handler rejects with
InsufficientBalance exactly when the selected amount exceeds the
relevant wallet's confirmedBalance scaled by the asset's decimal
precision (the default wallet with the selected input decimals on a buy,
the sell wallet with its token's unit decimals on a sell), and a
rejection leaves the store untouched — the submission unit is never
entered. -/
theorem C9_insufficient_balance_aborts (db : Db) (user : UserRec)
    (dw : WalletRec) (b : Option SubmitArgs) :
    (user.selectedOrderDirection = .buy →
      (checkSwapBalance db user dw = .error .insufficientBalance ↔
        (dw.confirmedBalance : ℚ) / (10 : ℚ) ^ user.selectedInputDecimals <
          user.selectedInputAmount)) ∧
    (∀ mint w tk bal, user.selectedOrderDirection = .sell →
      user.selectedInputMint = some mint →
      getWalletBalance db user.id mint = some (w, tk, bal) →
      bal = (w.confirmedBalance : ℚ) / (10 : ℚ) ^ tk.unitDecimals ∧
      (checkSwapBalance db user dw = .error .insufficientBalance ↔
        bal < user.selectedSellAmount)) ∧
    (∀ e, checkSwapBalance db user dw = .error e →
      create db user dw b = (.err e, db)) := by
  refine ⟨?_, ?_, ?_⟩
  · intro hdir
    simp only [checkSwapBalance, hdir]
    constructor
    · intro h
      by_contra hlt
      rw [if_neg hlt] at h
      exact Except.noConfusion h
    · intro hlt
      rw [if_pos hlt]
  · intro mint w tk bal hdir hmint hbal
    have hscale : bal = (w.confirmedBalance : ℚ) /
        (10 : ℚ) ^ tk.unitDecimals := by
      unfold getWalletBalance at hbal
      cases h1 : db.wallets.find? (fun x => x.userId == user.id &&
          ((db.tokens.find? fun t => t.id == x.tokenId).map
            (fun t => t.contractAddress == mint)).getD false) with
      | none => rw [h1] at hbal; simp at hbal
      | some w1 =>
        rw [h1, Option.some_bind] at hbal
        cases h2 : db.tokens.find? fun t => t.id == w1.tokenId with
        | none => rw [h2] at hbal; simp at hbal
        | some tk1 =>
          rw [h2, Option.map_some'] at hbal
          injection hbal with hbal
          injection hbal with hw hrest
          injection hrest with htk hb
          rw [← hb, hw, htk]
    refine ⟨hscale, ?_⟩
    simp only [checkSwapBalance, hdir, hmint, Option.some_bind, hbal]
    constructor
    · intro h
      by_contra hlt
      rw [if_neg hlt] at h
      exact Except.noConfusion h
    · intro hlt
      rw [if_pos hlt]
  · intro e he
    simp [create, he]

/-- A user whose selected buy amount of 2 native units exceeds the
default wallet's scaled balance. -/
def poorUser : UserRec := { buyUser with selectedInputAmount := 2 }

/-- A user selecting a buy of 2 native units against a default wallet
holding 1,000,000 minor units at 9 decimals (0.001 units) is rejected
with InsufficientBalance and nothing is persisted. -/
theorem C9_insufficient_balance_aborts_witness :
    checkSwapBalance submitDbBuy poorUser wSol =
      .error .insufficientBalance ∧
    create submitDbBuy poorUser wSol (some submitArgsA) =
      (.err .insufficientBalance, submitDbBuy) := by
  have h := C9_insufficient_balance_aborts submitDbBuy poorUser wSol
    (some submitArgsA)
  have herr := (h.1 rfl).mpr (by norm_num [poorUser, buyUser, wSol])
  exact ⟨herr, h.2.2 .insufficientBalance herr⟩

/-! Shape lemmas for the status state machine. -/

/-- A submission either leaves the orders table alone (aborted unit) or
appends exactly one order, created in status submitted with the next
primary key. -/
theorem submit_orders_shape (db : Db) (a : SubmitArgs) :
    ((transactionalCreateOrderAndSendToNetwork db a).db.orders =
        db.orders ∧
     (transactionalCreateOrderAndSendToNetwork db a).db.nextOrderId =
        db.nextOrderId) ∨
    ∃ o, (transactionalCreateOrderAndSendToNetwork db a).newOrder =
        some o ∧
      (transactionalCreateOrderAndSendToNetwork db a).db.orders =
        db.orders ++ [o] ∧
      o.status = OrderStatus.submitted ∧ o.id = db.nextOrderId ∧
      (transactionalCreateOrderAndSendToNetwork db a).db.nextOrderId =
        db.nextOrderId + 1 := by
  cases hl : submitLookups db a with
  | error e =>
    left
    constructor <;> simp [transactionalCreateOrderAndSendToNetwork, hl]
  | ok c =>
    right
    simp only [transactionalCreateOrderAndSendToNetwork, hl, submitApply]
    cases hc : c.existingOutputWallet with
    | some w =>
      simp only [hc, Option.isNone_some, Bool.false_eq_true, if_false]
      refine ⟨_, rfl, ?_, ?_, ?_, ?_⟩ <;> first | rfl | trivial
    | none =>
      simp only [hc, Option.isNone_none, if_true]
      refine ⟨_, rfl, ?_, ?_, ?_, ?_⟩ <;> first | rfl | trivial

/-- The orders table after updateOrderWalletPnL: exactly the settled
order's row rewritten to confirmed. -/
theorem updateOrderWalletPnL_orders (db : Db) (bw : Nat) (order : OrderRec)
    (iw : WalletRec) (bc fee qc : Int) (succ : Bool) (price : ℚ) :
    (updateOrderWalletPnL db bw order iw bc fee qc succ price).orders =
      updateOrderRow db.orders order.id (fun _ =>
        { order with
          outAmount := some (match order.orderDirection with
            | .buy => bc
            | .sell => qc)
          networkFee := fee
          status := .confirmed
          succeeded := true }) := by
  unfold updateOrderWalletPnL
  simp only [updateOrCreatePnL_orders]

theorem updateOrderWalletPnL_nextOrderId (db : Db) (bw : Nat)
    (order : OrderRec) (iw : WalletRec) (bc fee qc : Int) (succ : Bool)
    (price : ℚ) :
    (updateOrderWalletPnL db bw order iw bc fee qc succ price).nextOrderId =
      db.nextOrderId := by
  unfold updateOrderWalletPnL
  simp only [updateOrCreatePnL_nextOrderId]

/-- A settlement of a parsed transaction either leaves the orders table
alone (a logged error) or rewrites exactly the settled order's row to a
terminal status. -/
theorem settle_orders_shape (db : Db) (c : OrderCtx) (info : TxInfo)
    (p : ℚ) :
    ((settleParsedTransaction db c info p).1.orders = db.orders ∧
     (settleParsedTransaction db c info p).1.nextOrderId =
        db.nextOrderId) ∨
    ∃ o2, o2.id = c.order.id ∧
      (o2.status = .confirmed ∨ o2.status = .failed) ∧
      (settleParsedTransaction db c info p).1.orders =
        updateOrderRow db.orders c.order.id (fun _ => o2) ∧
      (settleParsedTransaction db c info p).1.nextOrderId =
        db.nextOrderId := by
  by_cases herr : ((info.meta.map fun m => m.errored).getD false) = true
  · have hs : settleParsedTransaction db c info p =
        (handleTransactionFailure db c.order c.inputWallet
          ((info.meta.map fun m => m.fee).getD 0) false,
         .settledFailed) := by
      unfold settleParsedTransaction
      simp [herr]
    rw [hs]
    exact Or.inr ⟨{ c.order with
        networkFee := (info.meta.map fun m => m.fee).getD 0,
        status := .failed, succeeded := false },
      rfl, Or.inr rfl, rfl, rfl⟩
  · cases hm : info.meta with
    | none =>
      have hs : settleParsedTransaction db c info p = (db, .errorLogged) := by
        unfold settleParsedTransaction
        simp [herr, hm]
      rw [hs]
      exact Or.inl ⟨rfl, rfl⟩
    | some m =>
      have herr2 : m.errored = false := by
        rw [hm] at herr
        simpa using herr
      cases hq : calculateQuoteTokenBalanceChange info.accountKeys m
          c.defaultWallet.address with
      | none =>
        have hs : settleParsedTransaction db c info p =
            (db, .errorLogged) := by
          unfold settleParsedTransaction
          simp [herr, herr2, hm, hq]
        rw [hs]
        exact Or.inl ⟨rfl, rfl⟩
      | some q =>
        have hs : settleParsedTransaction db c info p =
            (updateOrderWalletPnL db
              (match c.order.orderDirection with
               | .buy => c.outputWallet
               | .sell => c.inputWallet).id c.order c.inputWallet
              (calculateBaseTokenChanges m
                (match c.order.orderDirection with
                 | .buy => c.outputToken
                 | .sell => c.inputToken).contractAddress
                c.defaultWallet.address)
              (calculateTransactionFee m) q true p,
             .settledConfirmed) := by
          unfold settleParsedTransaction
          simp [herr, herr2, hm, hq]
        rw [hs]
        refine Or.inr ⟨{ c.order with
            outAmount := some (match c.order.orderDirection with
              | .buy => calculateBaseTokenChanges m
                  (match c.order.orderDirection with
                   | .buy => c.outputToken
                   | .sell => c.inputToken).contractAddress
                  c.defaultWallet.address
              | .sell => q)
            networkFee := calculateTransactionFee m
            status := .confirmed
            succeeded := true }, rfl, Or.inl rfl, ?_, ?_⟩
        · exact updateOrderWalletPnL_orders db _ c.order c.inputWallet _ _
            q true p
        · exact updateOrderWalletPnL_nextOrderId db _ c.order c.inputWallet
            _ _ q true p

/-- One reconciliation run either leaves the orders table alone or
rewrites exactly one non-terminal order's row to a terminal status. -/
theorem check_orders_shape (db : Db) (oid : Nat) (env : NetEnv) :
    ((checkConfirmation db oid env).db.orders = db.orders ∧
     (checkConfirmation db oid env).db.nextOrderId = db.nextOrderId) ∨
    ∃ c o2, getOrderById db oid = some c ∧
      (c.order.status == OrderStatus.confirmed ||
        c.order.status == OrderStatus.failed) = false ∧
      o2.id = c.order.id ∧
      (o2.status = .confirmed ∨ o2.status = .failed) ∧
      (checkConfirmation db oid env).db.orders =
        updateOrderRow db.orders c.order.id (fun _ => o2) ∧
      (checkConfirmation db oid env).db.nextOrderId = db.nextOrderId := by
  cases hctx : getOrderById db oid with
  | none => exact Or.inl (by simp [checkConfirmation, hctx])
  | some c =>
    simp only [checkConfirmation, hctx]
    split
    · exact Or.inl ⟨rfl, rfl⟩
    · split
      · exact Or.inl ⟨rfl, rfl⟩
      · split
        · exact Or.inl ⟨rfl, rfl⟩
        · rename_i hguard
          have hnt : (c.order.status == OrderStatus.confirmed ||
              c.order.status == OrderStatus.failed) = false := by
            revert hguard
            cases c.order.status == OrderStatus.confirmed ||
              c.order.status == OrderStatus.failed <;> simp
          cases henv : env.confirmRes with
          | rpcFailure => exact Or.inl ⟨rfl, rfl⟩
          | expiredBlockheight =>
            cases hp : env.parsedTx with
            | none =>
              exact Or.inr ⟨c,
                { c.order with
                  networkFee := 0
                  status := .failed
                  succeeded := false },
                rfl, hnt, rfl, Or.inr rfl, rfl, rfl⟩
            | some info =>
              rcases settle_orders_shape db c info env.solPriceUsd with
                h | ⟨o2, h1, h2, h3, h4⟩
              · exact Or.inl h
              · exact Or.inr ⟨c, o2, rfl, hnt, h1, h2, h3, h4⟩
          | landed =>
            cases hp : env.parsedTx with
            | none => exact Or.inl ⟨rfl, rfl⟩
            | some info =>
              rcases settle_orders_shape db c info env.solPriceUsd with
                h | ⟨o2, h1, h2, h3, h4⟩
              · exact Or.inl h
              · exact Or.inr ⟨c, o2, rfl, hnt, h1, h2, h3, h4⟩

/-- C10: on a well-formed store, every engine step (a submission or a
reconciliation) preserves well-formedness; every order row it creates is
created directly in status submitted; the status of an existing row
either stays unchanged or moves from submitted to confirmed or failed
(so created, submitting and confirming are never assigned); and every
non-terminal order is covered by the reconciler's selection of rows with
status exactly submitted. -/
theorem C10_status_machine (db db2 : Db) (hinv : DbInv db)
    (hstep : SysStep db db2) :
    DbInv db2 ∧
    (∀ o ∈ db.orders, ∀ o2 ∈ db2.orders, o2.id = o.id →
      o2.status = o.status ∨
      (o.status = .submitted ∧
        (o2.status = .confirmed ∨ o2.status = .failed))) ∧
    (∀ o2 ∈ db2.orders, (∀ o ∈ db.orders, o.id ≠ o2.id) →
      o2.status = .submitted) ∧
    (∀ o ∈ db.orders, o.status ≠ .confirmed → o.status ≠ .failed →
      o ∈ selectOrders db.orders) := by
  obtain ⟨hstat, hbound, hdist⟩ := hinv
  have hselect : ∀ o ∈ db.orders, o.status ≠ .confirmed →
      o.status ≠ .failed → o ∈ selectOrders db.orders := by
    intro o ho h1 h2
    rcases hstat o ho with h | h | h
    · rw [selectOrders, List.mem_filter]
      exact ⟨ho, by simp [h]⟩
    · exact absurd h h1
    · exact absurd h h2
  have hshape :
      (db2.orders = db.orders ∧ db2.nextOrderId = db.nextOrderId) ∨
      (∃ o, db2.orders = db.orders ++ [o] ∧ o.status = .submitted ∧
        o.id = db.nextOrderId ∧ db2.nextOrderId = db.nextOrderId + 1) ∨
      (∃ oldo o2, oldo ∈ db.orders ∧ oldo.status = .submitted ∧
        o2.id = oldo.id ∧ (o2.status = .confirmed ∨ o2.status = .failed) ∧
        db2.orders = updateOrderRow db.orders oldo.id (fun _ => o2) ∧
        db2.nextOrderId = db.nextOrderId) := by
    cases hstep with
    | submit a =>
      rcases submit_orders_shape db a with h | ⟨o, -, h1, h2, h3, h4⟩
      · exact Or.inl h
      · exact Or.inr (Or.inl ⟨o, h1, h2, h3, h4⟩)
    | reconcile oid env =>
      rcases check_orders_shape db oid env with
        h | ⟨c, o2, hctx, hnt, hid, hterm, horders, hnext⟩
      · exact Or.inl h
      · right
        right
        have hfind := getOrderById_some_order hctx
        have hmem : c.order ∈ db.orders := List.mem_of_find?_eq_some hfind
        have hsub : c.order.status = .submitted := by
          rcases hstat _ hmem with h | h | h
          · exact h
          · rw [h] at hnt
            simp at hnt
          · rw [h] at hnt
            simp at hnt
        exact ⟨c.order, o2, hmem, hsub, hid, hterm, horders, hnext⟩
  rcases hshape with ⟨horders, hnext⟩ |
    ⟨newo, horders, hnewsub, hnewid, hnext⟩ |
    ⟨oldo, o2n, holdmem, holdsub, hid2, hterm2, horders, hnext⟩
  · refine ⟨⟨?_, ?_, ?_⟩, ?_, ?_, hselect⟩
    · rw [horders]
      exact hstat
    · rw [horders, hnext]
      exact hbound
    · rw [horders]
      exact hdist
    · intro o ho o2 ho2 hideq
      rw [horders] at ho2
      have heq : o2 = o := eq_of_mem_of_id_eq (fun x => x.id) hdist ho2 ho
        hideq
      exact Or.inl (by rw [heq])
    · intro o2 ho2 hnone
      rw [horders] at ho2
      exact absurd rfl (hnone o2 ho2)
  · refine ⟨⟨?_, ?_, ?_⟩, ?_, ?_, hselect⟩
    · rw [horders]
      intro o ho
      rcases List.mem_append.mp ho with h | h
      · exact hstat o h
      · rw [List.mem_singleton.mp h]
        exact Or.inl hnewsub
    · rw [horders, hnext]
      intro o ho
      rcases List.mem_append.mp ho with h | h
      · exact Nat.lt_succ_of_lt (hbound o h)
      · rw [List.mem_singleton.mp h, hnewid]
        exact Nat.lt_succ_self _
    · rw [horders]
      rw [List.pairwise_append]
      refine ⟨hdist, List.pairwise_singleton _ _, ?_⟩
      intro x hx y hy
      rw [List.mem_singleton.mp hy, hnewid]
      exact Nat.ne_of_lt (hbound x hx)
    · intro o ho o2 ho2 hideq
      rw [horders] at ho2
      rcases List.mem_append.mp ho2 with h | h
      · have heq : o2 = o := eq_of_mem_of_id_eq (fun x => x.id) hdist h ho
          hideq
        exact Or.inl (by rw [heq])
      · rw [List.mem_singleton.mp h] at hideq
        rw [hnewid] at hideq
        exact absurd hideq.symm (Nat.ne_of_lt (hbound o ho))
    · intro o2 ho2 hnone
      rw [horders] at ho2
      rcases List.mem_append.mp ho2 with h | h
      · exact absurd rfl (hnone o2 h)
      · rw [List.mem_singleton.mp h]
        exact hnewsub
  · have hgid : ∀ x : OrderRec,
        (if x.id == oldo.id then o2n else x).id = x.id := by
      intro x
      split
      · rename_i hx
        simp only [beq_iff_eq] at hx
        rw [hid2, hx]
      · rfl
    have hmem2 : ∀ o2 ∈ db2.orders, ∃ x, x ∈ db.orders ∧
        o2 = (if x.id == oldo.id then o2n else x) := by
      intro o2 ho2
      rw [horders, updateOrderRow] at ho2
      rcases List.mem_map.mp ho2 with ⟨x, hx, hfx⟩
      exact ⟨x, hx, hfx.symm⟩
    refine ⟨⟨?_, ?_, ?_⟩, ?_, ?_, hselect⟩
    · intro o2 ho2
      rcases hmem2 o2 ho2 with ⟨x, hx, rfl⟩
      split
      · rcases hterm2 with h | h
        · exact Or.inr (Or.inl h)
        · exact Or.inr (Or.inr h)
      · exact hstat x hx
    · intro o2 ho2
      rcases hmem2 o2 ho2 with ⟨x, hx, rfl⟩
      rw [hnext, hgid x]
      exact hbound x hx
    · rw [horders, updateOrderRow, List.pairwise_map]
      refine hdist.imp ?_
      intro a b hab
      rw [hgid a, hgid b]
      exact hab
    · intro o ho o2 ho2 hideq
      rcases hmem2 o2 ho2 with ⟨x, hx, rfl⟩
      have hxid : x.id = o.id := by
        rw [← hgid x]
        exact hideq
      have hxo : x = o := eq_of_mem_of_id_eq (fun y => y.id) hdist hx ho
        hxid
      subst hxo
      by_cases hguard : x.id = oldo.id
      · have hxoldo : x = oldo := eq_of_mem_of_id_eq (fun y => y.id) hdist
          hx holdmem hguard
        rw [if_pos (by simp [hguard])]
        right
        constructor
        · rw [hxoldo]
          exact holdsub
        · exact hterm2
      · rw [if_neg (by simp [hguard])]
        exact Or.inl rfl
    · intro o2 ho2 hnone
      rcases hmem2 o2 ho2 with ⟨x, hx, rfl⟩
      exact absurd (hgid x).symm (hnone x hx)

/-- The fixture store is well-formed and a reconciliation step on it
keeps every order's status within the machine; in particular its
submitted order is selected by the cron query. -/
theorem C10_status_machine_witness :
    DbInv settleDb ∧
    orderA ∈ selectOrders settleDb.orders := by
  have hinv : DbInv settleDb := by
    unfold DbInv StatusOk
    refine ⟨?_, ?_, ?_⟩ <;> decide
  have h := C10_status_machine settleDb
    (checkConfirmation settleDb 1000 ⟨.landed, none, 1⟩).db hinv
    (SysStep.reconcile settleDb 1000 ⟨.landed, none, 1⟩)
  exact ⟨hinv, h.2.2.2 orderA (by decide) (by decide) (by decide)⟩

end Sniper
